import Mathlib

/-!
Shallow embedding of the arbitrage bot's scan-scheduling / evaluation engine
(`src/arbitrage-bot.ts`, class `ContinuousScanner`) and of the two paper-ledger
variants (`src/paper-trading.ts` and the unnamed variant `src/unnamed/part_003`).
JavaScript numbers are modelled as exact rationals (ℚ); JavaScript `Set` and
object maps are modelled as lists with key lookup (first match), matching the
`for (const k in obj) { obj[k] ... }` access pattern used by the source.
-/

namespace Arb

/-- The WSOL mint address hard-coded in the source. -/
def solMintAddr : String := "So11111111111111111111111111111111111111112"

/-! ## Token data model (`TokenData` interface, arbitrage-bot.ts) -/

structure TokenData where
  mint : String
  symbol : String
  name : String
  decimals : Nat
  verified : Bool
  blacklisted : Bool
deriving Repr, DecidableEq

abbrev TokenMap := List (String × TokenData)

/-- Lookup by key, first match (JS object property access `tokenMap[mint]`). -/
def lookupTok (tm : TokenMap) (mint : String) : Option TokenData :=
  (tm.find? (fun p => p.1 == mint)).map Prod.snd

/-- Overwrite the value stored at a key (JS `tokenMap[mint] = token` when present). -/
def setTok (tm : TokenMap) (mint : String) (t : TokenData) : TokenMap :=
  tm.map (fun p => if p.1 == mint then (p.1, t) else p)

/-- Add an element to a JS `Set` (idempotent). -/
def addSet (s : List String) (m : String) : List String :=
  if s.contains m then s else s ++ [m]

/-! ## Balances (paper ledger), JS object of token mint → number -/

abbrev Balances := List (String × ℚ)

/-- `this.balances[tokenMint] || 0` (`getBalance`). -/
def getBal (b : Balances) (m : String) : ℚ :=
  ((b.find? (fun p => p.1 == m)).map Prod.snd).getD 0

/-- JS assignment `this.balances[k] = v` (upsert). -/
def setBal (b : Balances) (m : String) (v : ℚ) : Balances :=
  if (b.find? (fun p => p.1 == m)).isSome then
    b.map (fun p => if p.1 == m then (p.1, v) else p)
  else b ++ [(m, v)]

/-! ## Paper ledger, variant `src/paper-trading.ts` (class `PaperTrading`)

`executeTrade` draws a success outcome from `Math.random() < successRate`; the
draw is passed in as the boolean `isSuccessful`, and the random failure-reason
index as `reasonIx`.  Latency simulation (a pure `setTimeout`) is elided. -/

structure PTConfig where
  slippageAdjustment : ℚ
  gasFeesSimulation : Bool
deriving Repr, DecidableEq

structure PTStep where
  dex : String
deriving Repr, DecidableEq

structure PTOpp where
  route : List String
  steps : List PTStep
  startAmount : ℚ
  endAmount : ℚ
  profit : ℚ
  profitPercentage : ℚ
deriving Repr, DecidableEq

structure PTRecord where
  route : List String
  startToken : String
  startAmount : ℚ
  expectedEndAmount : ℚ
  adjustedEndAmount : ℚ
  profit : ℚ
  profitPercentage : ℚ
  gasUsed : Option ℚ
  successful : Bool
  failureReason : Option String
deriving Repr, DecidableEq

def ptFailureReasons : List String :=
  ["Transaction timed out", "Slippage exceeded", "Insufficient liquidity",
   "Price changed during execution", "Order book was updated", "DEX temporarily unavailable"]

structure PTResult where
  record : PTRecord
  balances : Balances
deriving Repr, DecidableEq

/-- `PaperTrading.executeTrade` of `src/paper-trading.ts` (lines 104–204).
There is no balance or staleness check in this variant; on a failed draw no
balance is touched, and the simulated gas is deducted (from the WSOL balance)
only in the successful branch. -/
def executeTradePT (cfg : PTConfig) (bal : Balances) (opp : PTOpp)
    (isSuccessful : Bool) (reasonIx : Nat) : PTResult :=
  let startToken := opp.route.headD ""
  let endToken := (opp.route.getLast?).getD ""
  let adjustedEndAmount := opp.endAmount * (1 - cfg.slippageAdjustment)
  let adjustedProfit := adjustedEndAmount - opp.startAmount
  let adjustedProfitPercentage := adjustedProfit / opp.startAmount * 100
  let gasUsed : ℚ := if cfg.gasFeesSimulation then (opp.steps.length : ℚ) * 0.00005 else 0
  let record : PTRecord :=
    { route := opp.route
      startToken := startToken
      startAmount := opp.startAmount
      expectedEndAmount := opp.endAmount
      adjustedEndAmount := adjustedEndAmount
      profit := adjustedProfit - gasUsed
      profitPercentage := adjustedProfitPercentage
      gasUsed := if cfg.gasFeesSimulation then some gasUsed else none
      successful := isSuccessful
      failureReason :=
        if isSuccessful then none
        else some ((ptFailureReasons.get? (reasonIx % 6)).getD "") }
  if isSuccessful then
    let b1 := setBal bal startToken (getBal bal startToken - opp.startAmount)
    let b2 := setBal b1 endToken (getBal b1 endToken + adjustedEndAmount)
    let b3 := if cfg.gasFeesSimulation
      then setBal b2 solMintAddr (getBal b2 solMintAddr - gasUsed)
      else b2
    ⟨record, b3⟩
  else ⟨record, bal⟩

/-! ## Paper ledger, variant `src/unnamed/part_003` (class `PaperTrading`)

This variant checks the source-asset balance before any mutation and returns
`{ success: false, reason: "insufficient_balance" }` when it is too low.
The per-step random slippage draws (`Math.random()`) are passed in as `rands`. -/

structure P3Config where
  gasFee : ℚ
  slippageVariation : ℚ
deriving Repr, DecidableEq

structure P3Step where
  inputMint : String
  outputMint : String
  inputAmount : ℚ
  outputAmount : ℚ
deriving Repr, DecidableEq

structure P3Opp where
  route : List String
  steps : List P3Step
  startAmount : ℚ
  endAmount : ℚ
  profit : ℚ
  profitPercentage : ℚ
deriving Repr, DecidableEq

structure P3Result where
  success : Bool
  reason : Option String
  balances : Balances
deriving Repr, DecidableEq

/-- One simulated swap of the `for (const step of opportunity.steps)` loop. -/
def p3ApplyStep (cfg : P3Config) (bal : Balances) (step : P3Step) (rand : ℚ) : Balances :=
  let outputAmount :=
    if 0 < cfg.slippageVariation then
      step.outputAmount * (1 - rand * cfg.slippageVariation / 100)
    else step.outputAmount
  setBal bal step.outputMint (getBal bal step.outputMint + outputAmount)

/-- `PaperTrading.executeTrade` of `src/unnamed/part_003` (lines 73–188). -/
def executeTradeP3 (cfg : P3Config) (bal : Balances) (opp : P3Opp)
    (rands : Nat → ℚ) : P3Result :=
  let startToken := opp.route.headD ""
  if getBal bal startToken < opp.startAmount then
    { success := false, reason := some "insufficient_balance", balances := bal }
  else
    let gasFeesSOL := cfg.gasFee * (opp.steps.length : ℚ)
    let b1 := setBal bal solMintAddr (getBal bal solMintAddr - gasFeesSOL)
    let b2 := setBal b1 startToken (getBal b1 startToken - opp.startAmount)
    let b3 := (opp.steps.enum.foldl
      (fun b si => p3ApplyStep cfg b si.2 (rands si.1)) b2)
    { success := true, reason := none, balances := b3 }

/-! ## Continuous scanner state (`ContinuousScanner`, arbitrage-bot.ts)

Only the fields the scheduling / registry logic reads or writes are embedded:
`tokenMap`, `knownGoodTokens`, `blacklistedTokens`, `routeScoreMap`,
`routeQueue`.  Timestamps and rational scores are ℚ. -/

structure RouteQueueItem where
  route : List String
  pattern : String
  priority : ℚ
  lastChecked : ℚ
deriving Repr, DecidableEq

structure ScannerState where
  tokenMap : TokenMap
  knownGoodTokens : List String
  blacklistedTokens : List String
  routeScoreMap : List (String × ℚ)
  routeQueue : List RouteQueueItem
deriving Repr, DecidableEq

/-- `this.blacklistedTokens.has(mint) || (this.tokenMap[mint]?.blacklisted ?? false)`,
the test used at lines 2298–2300 to decide whether a route may be re-enqueued. -/
def isBlacklistedTok (s : ScannerState) (m : String) : Bool :=
  s.blacklistedTokens.contains m || (((lookupTok s.tokenMap m).map (·.blacklisted)).getD false)

/-- `this.knownGoodTokens.has(mint) || (this.tokenMap[mint]?.verified ?? false)`
(the verification test of line 2174). -/
def isVerifiedTok (s : ScannerState) (m : String) : Bool :=
  s.knownGoodTokens.contains m || (((lookupTok s.tokenMap m).map (·.verified)).getD false)

/-- The `verified` flag stored in the token map for a mint (false when absent). -/
def verifiedFlag (s : ScannerState) (m : String) : Bool :=
  ((lookupTok s.tokenMap m).map (·.verified)).getD false

/-- Registry classification as consumed by the scanner: the blacklist test is
made before the verified test (`generateTriangularRoutes`, lines 2053–2056), so
blacklisting takes precedence. -/
inductive Classification | Unverified | Verified | Blacklisted
deriving Repr, DecidableEq

def classify (s : ScannerState) (m : String) : Classification :=
  if isBlacklistedTok s m then .Blacklisted
  else if isVerifiedTok s m then .Verified
  else .Unverified

/-- Blacklist one token: `this.blacklistedTokens.add(mint)` plus
`token.blacklisted = true` when the token map has an entry (the pattern at
lines 2240–2247, 2257–2264 and 1963–1965). -/
def blacklistToken (s : ScannerState) (mint : String) : ScannerState :=
  match lookupTok s.tokenMap mint with
  | some t =>
    { s with blacklistedTokens := addSet s.blacklistedTokens mint,
             tokenMap := setTok s.tokenMap mint { t with blacklisted := true } }
  | none => { s with blacklistedTokens := addSet s.blacklistedTokens mint }

/-! ## Route generation and the priority queue -/

/-- `getRouteKey` (line 2017). -/
def getRouteKey (route : List String) : String := String.intercalate "-" route

/-- `getRoutePriority` (lines 2022–2026): `this.routeScoreMap.get(routeKey) || 1.0`.
JS `||` treats a stored 0 as absent. -/
def getRoutePriority (scores : List (String × ℚ)) (key : String) : ℚ :=
  match (scores.find? (fun p => p.1 == key)).map Prod.snd with
  | none => 1
  | some v => if v = 0 then 1 else v

/-- JS `Map.set` (upsert). -/
def setScore (scores : List (String × ℚ)) (key : String) (v : ℚ) : List (String × ℚ) :=
  if (scores.find? (fun p => p.1 == key)).isSome then
    scores.map (fun p => if p.1 == key then (p.1, v) else p)
  else scores ++ [(key, v)]

/-- The comparator of `sortRouteQueue` (lines 2029–2039), read as a "less or
equal" relation: `a` may precede `b`.  When priorities differ by more than 0.1
the higher priority comes first, otherwise the older `lastChecked` comes first. -/
def routeOrder (a b : RouteQueueItem) : Prop :=
  if (0.1 : ℚ) < |b.priority - a.priority| then b.priority ≤ a.priority
  else a.lastChecked ≤ b.lastChecked

instance : DecidableRel routeOrder := fun a b => by
  unfold routeOrder; infer_instance

/-- `sortRouteQueue` (sort by priority, ties by oldest `lastChecked`). -/
def sortRouteQueue (q : List RouteQueueItem) : List RouteQueueItem :=
  q.insertionSort routeOrder

/-- `generateTriangularRoutes` (lines 2042–2063): for every key of the token
map, skip the source mint, skip blacklisted tokens, skip tokens neither
verified nor known-good, and emit `[sol, mint, sol]` for the rest. -/
def generateTriangularRoutes (s : ScannerState) (solMint : String) : List (List String) :=
  (s.tokenMap.map Prod.fst).filterMap (fun mint =>
    match lookupTok s.tokenMap mint with
    | none => none
    | some token =>
      if mint == solMint then none
      else if s.blacklistedTokens.contains mint || token.blacklisted then none
      else if !token.verified && !s.knownGoodTokens.contains mint then none
      else some [solMint, mint, solMint])

/-- `generateAllRoutes` (lines 1986–2014): clear the queue, push every
generated route with its score-map priority and `lastChecked = 0`, then sort. -/
def generateAllRoutes (s : ScannerState) (solMint : String) : List RouteQueueItem :=
  sortRouteQueue ((generateTriangularRoutes s solMint).map (fun r =>
    { route := r, pattern := "triangular",
      priority := getRoutePriority s.routeScoreMap (getRouteKey r), lastChecked := 0 }))

/-- `route.some(mint => blacklisted)` (lines 2298–2300). -/
def containsBlacklisted (s : ScannerState) (route : List String) : Bool :=
  route.any (fun m => isBlacklistedTok s m)

/-- The re-enqueue step at the end of `processNextRoute` (lines 2297–2312):
the popped item is pushed back with a refreshed priority unless its route now
contains a blacklisted token, in which case the queue is left as it is. -/
def reenqueueRoute (s : ScannerState) (item : RouteQueueItem) : List RouteQueueItem :=
  if containsBlacklisted s item.route then s.routeQueue
  else s.routeQueue ++
    [{ item with priority := getRoutePriority s.routeScoreMap (getRouteKey item.route) }]

/-- The conservative blacklist fallback of the catch branch (lines 2254–2268):
when the offending token cannot be parsed from the error message, blacklist
every token of the route that is neither the source mint nor in the known-good
set. -/
def blacklistFallback (s : ScannerState) (solMint : String) (route : List String) :
    ScannerState :=
  route.foldl (fun st mint =>
    if mint != solMint && !st.knownGoodTokens.contains mint then blacklistToken st mint
    else st) s

/-! ## Route score updates (`processNextRoute`, lines 2202–2222) -/

/-- Profitable verdict: `currentScore * 1.5` (line 2205). -/
def updateScoreProfitable (scores : List (String × ℚ)) (key : String) : List (String × ℚ) :=
  setScore scores key (getRoutePriority scores key * 1.5)

/-- Non-profitable verdict: `currentScore * 0.95` (line 2222). -/
def updateScoreNonProfitable (scores : List (String × ℚ)) (key : String) : List (String × ℚ) :=
  setScore scores key (getRoutePriority scores key * 0.95)

/-! ## Consecutive-error backoff (`processNextRoute`, lines 2185–2188, 2226–2227,
2287–2294, 2318–2320) -/

structure BackoffState where
  consecutiveErrors : Nat
  backoffDelay : ℚ
deriving Repr, DecidableEq

/-- `private maxBackoffDelay = 10000` (line 1738). -/
def maxBackoffDelay : ℚ := 10000

/-- The success branch: `this.consecutiveErrors = 0; this.backoffDelay = this.requestDelay`. -/
def onEvalSuccess (requestDelay : ℚ) (_ : BackoffState) : BackoffState :=
  { consecutiveErrors := 0, backoffDelay := requestDelay }

/-- The error branch: increment the counter, and once it exceeds 3 multiply the
backoff delay by 1.5, capped at `maxBackoffDelay`. -/
def onEvalError (s : BackoffState) : BackoffState :=
  let ce := s.consecutiveErrors + 1
  { consecutiveErrors := ce
    backoffDelay := if 3 < ce then min (s.backoffDelay * 1.5) maxBackoffDelay
      else s.backoffDelay }

/-- `const currentDelay = this.consecutiveErrors > 3 ? this.backoffDelay : this.requestDelay`. -/
def nextIterationDelay (requestDelay : ℚ) (s : BackoffState) : ℚ :=
  if 3 < s.consecutiveErrors then s.backoffDelay else requestDelay

/-! ## The opportunities list (`processNextRoute` lines 2190–2200,
`getBestOpportunity` lines 2682–2689) -/

structure OpportunityM where
  route : List String
  startAmount : ℚ
  endAmount : ℚ
  profit : ℚ
  profitPercentage : ℚ
deriving Repr, DecidableEq

/-- The JS sort comparator `(a, b) => b.profitPercentage - a.profitPercentage`
read as "`a` may precede `b`", i.e. descending profit percentage. -/
def oppOrder (a b : OpportunityM) : Prop := b.profitPercentage ≤ a.profitPercentage

instance : DecidableRel oppOrder := fun a b =>
  inferInstanceAs (Decidable (b.profitPercentage ≤ a.profitPercentage))

instance : IsTotal OpportunityM oppOrder :=
  ⟨fun a b => by unfold oppOrder; exact le_total b.profitPercentage a.profitPercentage⟩

instance : IsTrans OpportunityM oppOrder :=
  ⟨fun _ _ _ h1 h2 => le_trans h2 h1⟩

/-- The update of `this.opportunities` after a route evaluation: on a found
opportunity, push it, sort by descending `profitPercentage`, and keep only the
top 50; otherwise leave the list unchanged. -/
def updateOpportunities (ops : List OpportunityM) (found : Option OpportunityM) :
    List OpportunityM :=
  match found with
  | none => ops
  | some o =>
    let sorted := (ops ++ [o]).insertionSort oppOrder
    if 50 < sorted.length then sorted.take 50 else sorted

/-- `getBestOpportunity` (lines 2682–2689). -/
def getBestOpportunity (ops : List OpportunityM) : Option OpportunityM :=
  if ops.length = 0 then none else ops.head?

/-! ## The opportunity evaluator (`checkRouteForArbitrage`, lines 2536–2679)

The external quote provider is a parameter
`quote : input mint → output mint → integer amount → Option (output amount)`;
`none` models "no route" / a failed call. -/

/-- The token-verification side effect of a successful hop (lines 2583–2600):
only when the mint is not yet in `knownGoodTokens` is it added, and only then
is its token-map `verified` flag set. -/
def markVerified (s : ScannerState) (mint : String) : ScannerState :=
  if s.knownGoodTokens.contains mint then s
  else
    match lookupTok s.tokenMap mint with
    | some t =>
      { s with knownGoodTokens := s.knownGoodTokens ++ [mint],
               tokenMap := setTok s.tokenMap mint { t with verified := true } }
    | none => { s with knownGoodTokens := s.knownGoodTokens ++ [mint] }

/-- The hop loop of `checkRouteForArbitrage` (lines 2553–2632): look up the
output token, floor the running amount, require it positive, call the quote
provider, mark both hop mints verified, and continue with the quoted output. -/
def runHops (quote : String → String → ℤ → Option ℚ) (s : ScannerState)
    (amt : ℚ) (cur : String) : List String → Option ℚ × ScannerState
  | [] => (some amt, s)
  | out :: rest =>
    match lookupTok s.tokenMap out with
    | none => (none, s)
    | some _ =>
      let inputAmount : ℤ := ⌊amt⌋
      if inputAmount ≤ 0 then (none, s)
      else
        match quote cur out inputAmount with
        | none => (none, s)
        | some outAmt =>
          let s1 := markVerified (markVerified s cur) out
          runHops quote s1 outAmt out rest

/-- `checkRouteForArbitrage` (lines 2536–2679).  `tradeSize` is
`this.tradeSize` and `minThr` is `config.arbitrage.minimumProfitThreshold`
(a fraction; the code compares percentages, multiplying both sides by 100).
Returns the opportunity (or `none`) together with the mutated scanner state. -/
def checkRouteForArbitrage (quote : String → String → ℤ → Option ℚ)
    (s : ScannerState) (tradeSize minThr : ℚ) (route : List String) :
    Option OpportunityM × ScannerState :=
  match route with
  | [] => (none, s)
  | r0 :: rest =>
    match lookupTok s.tokenMap r0 with
    | none => (none, s)
    | some firstToken =>
      let amt0 := tradeSize * 10 ^ firstToken.decimals
      match runHops quote s amt0 r0 rest with
      | (none, s1) => (none, s1)
      | (some finalAmt, s1) =>
        let startTokenDecimals :=
          match lookupTok s1.tokenMap r0 with
          | some t => if t.decimals = 0 then 9 else t.decimals
          | none => 9
        let endAmountInTokens := finalAmt / 10 ^ startTokenDecimals
        let profit := endAmountInTokens - tradeSize
        let minThreshold := minThr * 100
        let estimatedGas := 0.00001 * ((route.length : ℚ) - 1)
        let adjustedProfit := profit - estimatedGas
        let adjustedProfitPercentage :=
          ((endAmountInTokens - estimatedGas) / tradeSize - 1) * 100
        if minThreshold ≤ adjustedProfitPercentage then
          (some { route := route, startAmount := tradeSize,
                  endAmount := endAmountInTokens, profit := adjustedProfit,
                  profitPercentage := adjustedProfitPercentage }, s1)
        else (none, s1)

/-! ## Registry refresh (`fetchJupiterTokens`, lines 1913–1983)

The network fetch is external; the reconciliation against the downloaded token
list is embedded as a pure function of the scanner state. -/

structure JupToken where
  address : String
  symbol : String
  name : String
  decimals : Nat
deriving Repr, DecidableEq

/-- One iteration of `jupiterTokens.forEach` (lines 1937–1957): add the address
to `knownGoodTokens`; set `verified` on an existing token-map entry, or insert
a fresh verified entry. -/
def refreshStep1 (s : ScannerState) (tok : JupToken) : ScannerState :=
  match lookupTok s.tokenMap tok.address with
  | some t =>
    { s with knownGoodTokens := addSet s.knownGoodTokens tok.address,
             tokenMap := setTok s.tokenMap tok.address { t with verified := true } }
  | none =>
    { s with knownGoodTokens := addSet s.knownGoodTokens tok.address,
             tokenMap := s.tokenMap ++
        [(tok.address, { mint := tok.address, symbol := tok.symbol, name := tok.name,
                         decimals := tok.decimals, verified := true, blacklisted := false })] }

/-- One iteration of the removal loop (lines 1960–1968): a token-map key that
is neither in the downloaded set nor in `knownGoodTokens` is blacklisted. -/
def refreshStep2 (jupAddrs : List String) (s : ScannerState) (addr : String) : ScannerState :=
  if !jupAddrs.contains addr && !s.knownGoodTokens.contains addr then blacklistToken s addr
  else s

/-- The reconciliation core of `fetchJupiterTokens`: phase 1 over the fetched
list, then phase 2 over the (updated) token-map keys. -/
def refreshTokens (s : ScannerState) (toks : List JupToken) : ScannerState :=
  let jupAddrs := toks.map (·.address)
  let s1 := toks.foldl refreshStep1 s
  (s1.tokenMap.map Prod.fst).foldl (refreshStep2 jupAddrs) s1

/-! ## Concrete instances used by witnesses and counterexamples -/

def c3TokS : TokenData := ⟨"S", "S", "S", 1, false, false⟩

def c3TokX : TokenData := ⟨"X", "X", "X", 1, false, false⟩

def c3TokY : TokenData := ⟨"Y", "Y", "Y", 1, false, false⟩

def c3StateW : ScannerState :=
  ⟨[("S", c3TokS), ("X", c3TokX), ("Y", c3TokY)], [], [], [], []⟩

/-- A quote provider with fixed rates: 2 out of "S", 1 elsewhere. -/
def c3QuoteW : String → String → ℤ → Option ℚ :=
  fun a _ n => if a = "S" then some (2 * (n : ℚ)) else some ((n : ℚ))

def c4TokSOL : TokenData := ⟨"SOL", "SOL", "Solana", 9, true, false⟩

def c4TokX : TokenData := ⟨"X", "X", "X", 6, true, false⟩

/-- A state whose source mint "SOL" is blacklisted while "X" is verified. -/
def c4StateW : ScannerState := ⟨[("SOL", c4TokSOL), ("X", c4TokX)], [], ["SOL"], [], []⟩

/-- A state in which every non-source asset of the route [SOL, X, SOL] is in
the known-good set. -/
def c5StateW : ScannerState := ⟨[("SOL", c4TokSOL), ("X", c4TokX)], ["SOL", "X"], [], [], []⟩

/-- A state in which "X" is verified but not in the known-good set. -/
def c5StateW2 : ScannerState := ⟨[("SOL", c4TokSOL), ("X", c4TokX)], ["SOL"], [], [], []⟩

/-- A state whose token "X" is blacklisted (set membership and flag). -/
def c6StateW : ScannerState := ⟨[("X", ⟨"X", "X", "X", 6, false, true⟩)], [], ["X"], [], []⟩

/-- A state with a blacklisted "X" and an unverified "Y". -/
def c6StateW2 : ScannerState :=
  ⟨[("X", ⟨"X", "X", "X", 6, false, true⟩), ("Y", ⟨"Y", "Y", "Y", 6, false, false⟩)],
   [], ["X"], [], []⟩

/-- A canonical (Jupiter) token record for "X". -/
def c6TokW : JupToken := ⟨"X", "X", "X", 6⟩

def c8TokA : TokenData := ⟨"A", "A", "A", 1, false, false⟩

def c8TokB : TokenData := ⟨"B", "B", "B", 1, false, false⟩

/-- A state in which "A" is already known-good but its token-map `verified`
flag is still false. -/
def c8StateW : ScannerState := ⟨[("A", c8TokA), ("B", c8TokB)], ["A"], [], [], []⟩

/-- A state in which neither asset is known-good yet. -/
def c8StateW2 : ScannerState := ⟨[("A", c8TokA), ("B", c8TokB)], [], [], [], []⟩

def c8QuoteW : String → String → ℤ → Option ℚ := fun _ _ n => some ((n : ℤ) : ℚ)

/-! # Theorems -/

/-! ## C1 — insufficient balance in the paper ledger -/

/-- C1 (amended): in the `src/unnamed/part_003` paper-ledger variant,
`executeTrade` with an input amount exceeding the current balance of the
opportunity's source asset returns `success = false` with reason
`"insufficient_balance"` and leaves every balance unchanged. -/
theorem executeTradeP3_insufficient_balance (cfg : P3Config) (bal : Balances)
    (opp : P3Opp) (rands : Nat → ℚ)
    (h : getBal bal (opp.route.headD "") < opp.startAmount) :
    (executeTradeP3 cfg bal opp rands).success = false ∧
    (executeTradeP3 cfg bal opp rands).reason = some "insufficient_balance" ∧
    (executeTradeP3 cfg bal opp rands).balances = bal := by
  unfold executeTradeP3
  rw [if_pos h]
  exact ⟨rfl, rfl, rfl⟩

theorem executeTradeP3_insufficient_balance_witness :
    getBal [("A", (1 : ℚ))] ((["A", "B", "A"] : List String).headD "") < 5 ∧
    ((executeTradeP3 ⟨0, 0⟩ [("A", 1)] ⟨["A", "B", "A"], [], 5, 6, 1, 20⟩ (fun _ => 0)).success = false ∧
     (executeTradeP3 ⟨0, 0⟩ [("A", 1)] ⟨["A", "B", "A"], [], 5, 6, 1, 20⟩ (fun _ => 0)).reason = some "insufficient_balance" ∧
     (executeTradeP3 ⟨0, 0⟩ [("A", 1)] ⟨["A", "B", "A"], [], 5, 6, 1, 20⟩ (fun _ => 0)).balances = [("A", 1)]) :=
  ⟨by decide,
   executeTradeP3_insufficient_balance ⟨0, 0⟩ [("A", 1)] ⟨["A", "B", "A"], [], 5, 6, 1, 20⟩
     (fun _ => 0) (by decide)⟩

/-- C1 (counterexample): the `src/paper-trading.ts` variant — the one imported
by `arbitrage-bot.ts` — performs no balance check at all: with a source-asset
balance of 0 and a required input of 10, a successful draw produces a
successful trade record and mutates the balances. -/
theorem executeTradePT_insufficient_balance_cex :
    getBal [("SRC", (0 : ℚ))] "SRC" < 10 ∧
    (executeTradePT ⟨0, false⟩ [("SRC", 0)] ⟨["SRC", "T", "SRC"], [], 10, 10.5, 0.5, 5⟩ true 0).record.successful = true ∧
    (executeTradePT ⟨0, false⟩ [("SRC", 0)] ⟨["SRC", "T", "SRC"], [], 10, 10.5, 0.5, 5⟩ true 0).record.failureReason = none ∧
    (executeTradePT ⟨0, false⟩ [("SRC", 0)] ⟨["SRC", "T", "SRC"], [], 10, 10.5, 0.5, 5⟩ true 0).balances ≠ [("SRC", (0 : ℚ))] := by
  refine ⟨by decide, rfl, rfl, ?_⟩
  simp only [executeTradePT, setBal, getBal, List.find?]
  norm_num

/-! ## C2 — gas on failed paper trades -/

/-- C2 (amended): in `src/paper-trading.ts`, when the simulated success draw
fails, `executeTrade` leaves every balance unchanged — in particular the
simulated gas amount is NOT deducted from the SOL balance, whether or not
gas-fee simulation is enabled; the record is marked unsuccessful. -/
theorem executeTradePT_failed_draw_no_mutation (cfg : PTConfig) (bal : Balances)
    (opp : PTOpp) (reasonIx : Nat) :
    (executeTradePT cfg bal opp false reasonIx).balances = bal ∧
    (executeTradePT cfg bal opp false reasonIx).record.successful = false := by
  unfold executeTradePT
  exact ⟨rfl, rfl⟩

/-- C2 (counterexample): with gas-fee simulation enabled and a failed draw, a
positive simulated gas amount is recorded but the SOL balance is unchanged —
the claim that gas "is still deducted" on failure is false for this code. -/
theorem executeTradePT_failed_draw_gas_cex :
    (executeTradePT ⟨0, true⟩ [(solMintAddr, (5 : ℚ))] ⟨["SRC", "T", "SRC"], [⟨"d1"⟩, ⟨"d2"⟩], 10, 10.5, 0.5, 5⟩ false 0).record.gasUsed = some (1 / 10000) ∧
    (0 : ℚ) < 1 / 10000 ∧
    getBal (executeTradePT ⟨0, true⟩ [(solMintAddr, (5 : ℚ))] ⟨["SRC", "T", "SRC"], [⟨"d1"⟩, ⟨"d2"⟩], 10, 10.5, 0.5, 5⟩ false 0).balances solMintAddr
      = getBal [(solMintAddr, (5 : ℚ))] solMintAddr := by
  refine ⟨?_, by norm_num, rfl⟩
  simp only [executeTradePT]
  norm_num

/-! ## C7 — priority score after profitable vs non-profitable verdicts -/

theorem getRoutePriority_singleton (key : String) (v : ℚ) (hv : v ≠ 0) :
    getRoutePriority [(key, v)] key = v := by
  unfold getRoutePriority
  simp [List.find?, hv]

theorem updateScoreProfitable_singleton (key : String) (v : ℚ) (hv : v ≠ 0) :
    updateScoreProfitable [(key, v)] key = [(key, v * 1.5)] := by
  unfold updateScoreProfitable setScore getRoutePriority
  simp [List.find?, hv]

theorem updateScoreNonProfitable_singleton (key : String) (v : ℚ) (hv : v ≠ 0) :
    updateScoreNonProfitable [(key, v)] key = [(key, v * 0.95)] := by
  unfold updateScoreNonProfitable setScore getRoutePriority
  simp [List.find?, hv]

theorem iter_updateScoreProfitable (key : String) :
    ∀ n : Nat, (fun m => updateScoreProfitable m key)^[n + 1] [] = [(key, (1.5 : ℚ) ^ (n + 1))]
  | 0 => by
    simp [updateScoreProfitable, setScore, getRoutePriority, List.find?]
  | n + 1 => by
    rw [Function.iterate_succ_apply', iter_updateScoreProfitable key n]
    have hne : (1.5 : ℚ) ^ (n + 1) ≠ 0 := pow_ne_zero _ (by norm_num)
    show updateScoreProfitable [(key, (1.5 : ℚ) ^ (n + 1))] key = _
    rw [updateScoreProfitable_singleton key _ hne, ← pow_succ]

theorem iter_updateScoreNonProfitable (key : String) :
    ∀ n : Nat, (fun m => updateScoreNonProfitable m key)^[n + 1] [] = [(key, (0.95 : ℚ) ^ (n + 1))]
  | 0 => by
    simp [updateScoreNonProfitable, setScore, getRoutePriority, List.find?]
  | n + 1 => by
    rw [Function.iterate_succ_apply', iter_updateScoreNonProfitable key n]
    have hne : (0.95 : ℚ) ^ (n + 1) ≠ 0 := pow_ne_zero _ (by norm_num)
    show updateScoreNonProfitable [(key, (0.95 : ℚ) ^ (n + 1))] key = _
    rw [updateScoreNonProfitable_singleton key _ hne, ← pow_succ]

/-- C7: starting from an absent score (treated as 1.0), the priority score of a
route after N consecutive profitable verdicts (× 1.5 each) strictly exceeds its
score after N consecutive non-profitable verdicts (× 0.95 each), for every
N ≥ 1. -/
theorem routeScore_profitable_beats_nonProfitable (key : String) (n : Nat) (h : 1 ≤ n) :
    getRoutePriority ((fun m => updateScoreNonProfitable m key)^[n] []) key
      < getRoutePriority ((fun m => updateScoreProfitable m key)^[n] []) key := by
  obtain ⟨m, rfl⟩ : ∃ m, n = m + 1 := ⟨n - 1, by omega⟩
  rw [iter_updateScoreProfitable key m, iter_updateScoreNonProfitable key m]
  have h1 : (1.5 : ℚ) ^ (m + 1) ≠ 0 := pow_ne_zero _ (by norm_num)
  have h2 : (0.95 : ℚ) ^ (m + 1) ≠ 0 := pow_ne_zero _ (by norm_num)
  rw [getRoutePriority_singleton _ _ h1, getRoutePriority_singleton _ _ h2]
  exact pow_lt_pow_left₀ (by norm_num) (by norm_num) (Nat.succ_ne_zero m)

theorem routeScore_profitable_beats_nonProfitable_witness :
    1 ≤ 2 ∧
    getRoutePriority ((fun m => updateScoreNonProfitable m "k")^[2] []) "k"
      < getRoutePriority ((fun m => updateScoreProfitable m "k")^[2] []) "k" :=
  ⟨by norm_num, routeScore_profitable_beats_nonProfitable "k" 2 (by norm_num)⟩

/-! ## C9 — exponential backoff -/

theorem min_cap_mul_collapse (a : ℚ) :
    min (min a maxBackoffDelay * 1.5) maxBackoffDelay = min (a * 1.5) maxBackoffDelay := by
  unfold maxBackoffDelay
  rcases le_total a 10000 with hle | hge
  · rw [min_eq_left hle]
  · rw [min_eq_right hge]
    have h1 : (10000 : ℚ) ≤ 10000 * 1.5 := by norm_num
    have h2 : (10000 : ℚ) * 1.5 ≤ a * 1.5 := by nlinarith
    rw [min_eq_right h1, min_eq_right (le_trans h1 h2)]

theorem onEvalError_ce (s : BackoffState) :
    (onEvalError s).consecutiveErrors = s.consecutiveErrors + 1 := rfl

theorem onEvalError_delay (s : BackoffState) :
    (onEvalError s).backoffDelay =
      if 3 < s.consecutiveErrors + 1 then min (s.backoffDelay * 1.5) maxBackoffDelay
      else s.backoffDelay := rfl

theorem iterError_consecutiveErrors (s : BackoffState) :
    ∀ k : Nat, (onEvalError^[k] s).consecutiveErrors = s.consecutiveErrors + k
  | 0 => rfl
  | k + 1 => by
    rw [Function.iterate_succ_apply', onEvalError_ce, iterError_consecutiveErrors s k]
    omega

theorem iterError_three (b : ℚ) :
    onEvalError^[3] ⟨0, b⟩ = ⟨3, b⟩ := by
  show onEvalError (onEvalError (onEvalError ⟨0, b⟩)) = _
  unfold onEvalError
  norm_num

theorem iterError_delay_formula (b : ℚ) :
    ∀ j : Nat, (onEvalError^[4 + j] ⟨0, b⟩).backoffDelay
      = min (b * (1.5 : ℚ) ^ (j + 1)) maxBackoffDelay
  | 0 => by
    show (onEvalError (onEvalError^[3] ⟨0, b⟩)).backoffDelay = _
    rw [iterError_three b, onEvalError_delay]
    norm_num
  | j + 1 => by
    have hk : 4 + (j + 1) = (4 + j) + 1 := by omega
    rw [hk, Function.iterate_succ_apply', onEvalError_delay]
    have hce : (onEvalError^[4 + j] (⟨0, b⟩ : BackoffState)).consecutiveErrors = 4 + j := by
      rw [iterError_consecutiveErrors]; simp
    rw [hce, if_pos (by omega), iterError_delay_formula b j, min_cap_mul_collapse, mul_assoc,
      ← pow_succ]

/-- C9: after a successful evaluation the consecutive-error counter is 0 and
the next-iteration delay is the base request delay; after k consecutive errors
the counter is k, and once k exceeds the threshold 3 the delay grows
geometrically — `min (base × 1.5^(k−3)) 10000`. -/
theorem backoff_growth_and_reset (base : ℚ) (st : BackoffState) (k : Nat) :
    (onEvalSuccess base st).consecutiveErrors = 0 ∧
    nextIterationDelay base (onEvalSuccess base st) = base ∧
    (onEvalError^[k] (onEvalSuccess base st)).consecutiveErrors = k ∧
    (3 < k → nextIterationDelay base (onEvalError^[k] (onEvalSuccess base st))
      = min (base * (1.5 : ℚ) ^ (k - 3)) maxBackoffDelay) := by
  refine ⟨rfl, rfl, ?_, ?_⟩
  · rw [iterError_consecutiveErrors]; simp [onEvalSuccess]
  · intro hk
    have hsucc : onEvalSuccess base st = (⟨0, base⟩ : BackoffState) := rfl
    obtain ⟨j, rfl⟩ : ∃ j, k = 4 + j := ⟨k - 4, by omega⟩
    rw [hsucc]
    have hce : (onEvalError^[4 + j] (⟨0, base⟩ : BackoffState)).consecutiveErrors = 4 + j := by
      rw [iterError_consecutiveErrors]; simp
    unfold nextIterationDelay
    rw [hce, if_pos (by omega : (3 : Nat) < 4 + j), iterError_delay_formula base j]
    have hexp : 4 + j - 3 = j + 1 := by omega
    rw [hexp]

theorem backoff_growth_and_reset_witness :
    (onEvalSuccess 1500 ⟨7, 9000⟩).consecutiveErrors = 0 ∧
    nextIterationDelay 1500 (onEvalSuccess 1500 ⟨7, 9000⟩) = 1500 ∧
    (onEvalError^[5] (onEvalSuccess 1500 ⟨7, 9000⟩)).consecutiveErrors = 5 ∧
    (3 < 5 → nextIterationDelay 1500 (onEvalError^[5] (onEvalSuccess 1500 ⟨7, 9000⟩))
      = min (1500 * (1.5 : ℚ) ^ (5 - 3)) maxBackoffDelay) :=
  backoff_growth_and_reset 1500 ⟨7, 9000⟩ 5

/-! ## C10 — the opportunities list stays sorted and bounded -/

theorem getBestOpportunity_eq_head (ops : List OpportunityM) :
    getBestOpportunity ops = ops.head? := by
  cases ops <;> simp [getBestOpportunity]

/-- C10: if the opportunities list is sorted by non-increasing
`profitPercentage` and holds at most 50 entries, it still is after a route
evaluation (whether or not an opportunity was found), and `getBestOpportunity`
returns its first entry, or `none` when it is empty. -/
theorem opportunities_sorted_bounded (ops : List OpportunityM) (found : Option OpportunityM)
    (h : List.Sorted oppOrder ops ∧ ops.length ≤ 50) :
    (List.Sorted oppOrder (updateOpportunities ops found) ∧
      (updateOpportunities ops found).length ≤ 50) ∧
    getBestOpportunity ops = ops.head? := by
  refine ⟨?_, getBestOpportunity_eq_head ops⟩
  match found with
  | none => exact h
  | some o =>
    simp only [updateOpportunities]
    by_cases h50 : 50 < ((ops ++ [o]).insertionSort oppOrder).length
    · rw [if_pos h50]
      constructor
      · exact List.Pairwise.sublist (List.take_sublist _ _)
          (List.sorted_insertionSort oppOrder (ops ++ [o]))
      · rw [List.length_take]
        exact min_le_left _ _
    · rw [if_neg h50]
      exact ⟨List.sorted_insertionSort oppOrder (ops ++ [o]), by omega⟩

theorem opportunities_sorted_bounded_witness :
    (List.Sorted oppOrder [] ∧ ([] : List OpportunityM).length ≤ 50) ∧
    ((List.Sorted oppOrder (updateOpportunities [] (some ⟨["a"], 1, 2, 1, 100⟩)) ∧
      (updateOpportunities [] (some ⟨["a"], 1, 2, 1, 100⟩)).length ≤ 50) ∧
     getBestOpportunity [] = ([] : List OpportunityM).head?) :=
  ⟨⟨List.sorted_nil, by simp⟩,
   opportunities_sorted_bounded [] (some ⟨["a"], 1, 2, 1, 100⟩) ⟨List.sorted_nil, by simp⟩⟩

/-! ## Helper lemmas: association-list lookup and `markVerified` -/

theorem lookupTok_cons (p : String × TokenData) (rest : TokenMap) (x : String) :
    lookupTok (p :: rest) x = if p.1 = x then some p.2 else lookupTok rest x := by
  unfold lookupTok
  rw [List.find?]
  by_cases h : p.1 = x
  · simp [h]
  · simp [beq_eq_false_iff_ne.mpr h, h]

theorem lookupTok_setTok (m : String) (t : TokenData) (x : String) :
    ∀ tm : TokenMap, lookupTok (setTok tm m t) x =
      if x = m then (lookupTok tm m).map (fun _ => t) else lookupTok tm x := by
  intro tm
  induction tm with
  | nil => by_cases hxm : x = m <;> simp [lookupTok, setTok, hxm]
  | cons p rest ih =>
    have hset : setTok (p :: rest) m t
        = (if p.1 == m then (p.1, t) else p) :: setTok rest m t := rfl
    rw [hset]
    by_cases hpm : p.1 = m <;> by_cases hxm : x = m <;> by_cases hpx : p.1 = x <;>
      simp_all [lookupTok_cons, beq_iff_eq]

theorem lookupTok_append_of_some {tm : TokenMap} {x : String} {t : TokenData}
    (h : lookupTok tm x = some t) (l : TokenMap) : lookupTok (tm ++ l) x = some t := by
  induction tm with
  | nil => simp [lookupTok] at h
  | cons p rest ih =>
    rw [List.cons_append, lookupTok_cons]
    rw [lookupTok_cons] at h
    by_cases hpx : p.1 = x
    · rw [if_pos hpx] at h ⊢; exact h
    · rw [if_neg hpx] at h ⊢; exact ih h

theorem markVerified_blacklistedTokens (s : ScannerState) (m : String) :
    (markVerified s m).blacklistedTokens = s.blacklistedTokens := by
  unfold markVerified
  split
  · rfl
  · split <;> rfl

theorem markVerified_decimals (s : ScannerState) (m x : String) :
    ((lookupTok (markVerified s m).tokenMap x).map (fun t => t.decimals))
      = ((lookupTok s.tokenMap x).map (fun t => t.decimals)) := by
  unfold markVerified
  split
  · rfl
  · split
    · next t heq =>
      show ((lookupTok (setTok s.tokenMap m { t with verified := true }) x).map _) = _
      rw [lookupTok_setTok]
      by_cases hxm : x = m
      · subst hxm; rw [if_pos rfl, heq]; rfl
      · rw [if_neg hxm]
    · rfl

theorem markVerified_kg_mem_self (s : ScannerState) (m : String) :
    m ∈ (markVerified s m).knownGoodTokens := by
  unfold markVerified
  split
  · next h => exact List.elem_iff.mp h
  · split
    · next t heq => exact List.mem_append_right _ (List.mem_singleton.mpr rfl)
    · exact List.mem_append_right _ (List.mem_singleton.mpr rfl)

theorem markVerified_kg_mono (s : ScannerState) (m x : String)
    (h : x ∈ s.knownGoodTokens) : x ∈ (markVerified s m).knownGoodTokens := by
  unfold markVerified
  split
  · exact h
  · split
    · next t heq => exact List.mem_append_left _ h
    · exact List.mem_append_left _ h

theorem markVerified_flag_of_true (s : ScannerState) (m x : String)
    (h : verifiedFlag s x = true) : verifiedFlag (markVerified s m) x = true := by
  unfold markVerified
  split
  · exact h
  · split
    · next t heq =>
      unfold verifiedFlag at h ⊢
      show ((lookupTok (setTok s.tokenMap m { t with verified := true }) x).map _).getD false = true
      rw [lookupTok_setTok]
      by_cases hxm : x = m
      · subst hxm; rw [if_pos rfl, heq]; rfl
      · rw [if_neg hxm]; exact h
    · exact h

theorem markVerified_sets_flag (s : ScannerState) (m : String) (t : TokenData)
    (hkg : s.knownGoodTokens.contains m = false) (hl : lookupTok s.tokenMap m = some t) :
    verifiedFlag (markVerified s m) m = true := by
  unfold markVerified
  rw [hkg]
  simp only [Bool.false_eq_true, if_false]
  rw [hl]
  unfold verifiedFlag
  show ((lookupTok (setTok s.tokenMap m { t with verified := true }) m).map _).getD false = true
  rw [lookupTok_setTok, if_pos rfl, hl]
  rfl

/-! ## Helper lemmas: the hop loop `runHops` -/

theorem runHops_nil (q : String → String → ℤ → Option ℚ) (s : ScannerState)
    (amt : ℚ) (cur : String) : runHops q s amt cur [] = (some amt, s) := rfl

theorem runHops_cons_noTok {q : String → String → ℤ → Option ℚ} {s : ScannerState}
    {amt : ℚ} {cur out : String} (rest : List String)
    (hl : lookupTok s.tokenMap out = none) :
    runHops q s amt cur (out :: rest) = (none, s) := by
  unfold runHops
  rw [hl]

theorem runHops_cons_step {q : String → String → ℤ → Option ℚ} {s : ScannerState}
    {amt : ℚ} {cur out : String} (rest : List String) {t : TokenData}
    (hl : lookupTok s.tokenMap out = some t) {a : ℤ} (hfl : ⌊amt⌋ = a) (hap : 0 < a)
    {o : ℚ} (hq : q cur out a = some o) :
    runHops q s amt cur (out :: rest)
      = runHops q (markVerified (markVerified s cur) out) o out rest := by
  conv_lhs => unfold runHops
  rw [hl]
  simp only [hfl, if_neg (not_le.mpr hap), hq]

theorem runHops_kg_mono (q : String → String → ℤ → Option ℚ) (x : String) :
    ∀ (rest : List String) (s : ScannerState) (amt : ℚ) (cur : String),
      x ∈ s.knownGoodTokens → x ∈ ((runHops q s amt cur rest).2).knownGoodTokens
  | [], s, amt, cur, h => h
  | out :: rest, s, amt, cur, h => by
    unfold runHops
    cases hl : lookupTok s.tokenMap out with
    | none => exact h
    | some t =>
      simp only
      by_cases hle : (⌊amt⌋ : ℤ) ≤ 0
      · rw [if_pos hle]; exact h
      · rw [if_neg hle]
        cases hq : q cur out ⌊amt⌋ with
        | none => exact h
        | some o =>
          exact runHops_kg_mono q x rest _ o out
            (markVerified_kg_mono _ out x (markVerified_kg_mono _ cur x h))

theorem runHops_decimals (q : String → String → ℤ → Option ℚ) (x : String) :
    ∀ (rest : List String) (s : ScannerState) (amt : ℚ) (cur : String),
      ((lookupTok ((runHops q s amt cur rest).2).tokenMap x).map (fun t => t.decimals))
        = ((lookupTok s.tokenMap x).map (fun t => t.decimals))
  | [], s, amt, cur => rfl
  | out :: rest, s, amt, cur => by
    unfold runHops
    cases hl : lookupTok s.tokenMap out with
    | none => rfl
    | some t =>
      simp only
      by_cases hle : (⌊amt⌋ : ℤ) ≤ 0
      · rw [if_pos hle]
      · rw [if_neg hle]
        cases hq : q cur out ⌊amt⌋ with
        | none => rfl
        | some o =>
          rw [runHops_decimals q x rest _ o out, markVerified_decimals, markVerified_decimals]

theorem runHops_flag_mono (q : String → String → ℤ → Option ℚ) (x : String) :
    ∀ (rest : List String) (s : ScannerState) (amt : ℚ) (cur : String),
      verifiedFlag s x = true → verifiedFlag ((runHops q s amt cur rest).2) x = true
  | [], s, amt, cur, h => h
  | out :: rest, s, amt, cur, h => by
    unfold runHops
    cases hl : lookupTok s.tokenMap out with
    | none => exact h
    | some t =>
      simp only
      by_cases hle : (⌊amt⌋ : ℤ) ≤ 0
      · rw [if_pos hle]; exact h
      · rw [if_neg hle]
        cases hq : q cur out ⌊amt⌋ with
        | none => exact h
        | some o =>
          exact runHops_flag_mono q x rest _ o out
            (markVerified_flag_of_true _ out x (markVerified_flag_of_true _ cur x h))

/-! ## C3 — three-hop evaluation with fixed conversion rates -/

/-- C3: for a 3-hop cycle `[S, X, Y, S]` evaluated against a quote provider
returning fixed conversion rates r1, r2, r3 on the three hops (with the
intermediate smallest-unit amounts integral, so the `Math.floor` calls are
exact), the evaluator's computed gross profit (`endAmount − startAmount`)
equals `amountIn × r1 × r2 × r3 − amountIn`, and the cycle is classified
profitable (an opportunity is returned) iff that gross profit net of the fixed
per-hop gas estimate (0.00001 × 3) is at least the configured minimum profit
threshold times the trade size. -/
theorem evaluator_three_hop_fixed_rates
    (quote : String → String → ℤ → Option ℚ) (s : ScannerState)
    (S X Y : String) (tS tX tY : TokenData) (d : Nat)
    (amountIn minThr r1 r2 r3 : ℚ) (a0 a1 a2 : ℤ)
    (hS : lookupTok s.tokenMap S = some tS)
    (hX : lookupTok s.tokenMap X = some tX)
    (hY : lookupTok s.tokenMap Y = some tY)
    (hd : tS.decimals = d) (hd0 : d ≠ 0)
    (hpos : 0 < amountIn)
    (h0 : amountIn * 10 ^ d = (a0 : ℚ)) (h0p : 0 < a0)
    (hq1 : quote S X a0 = some (r1 * (a0 : ℚ)))
    (h1 : r1 * (a0 : ℚ) = (a1 : ℚ)) (h1p : 0 < a1)
    (hq2 : quote X Y a1 = some (r2 * (a1 : ℚ)))
    (h2 : r2 * (a1 : ℚ) = (a2 : ℚ)) (h2p : 0 < a2)
    (hq3 : quote Y S a2 = some (r3 * (a2 : ℚ))) :
    (∀ opp, (checkRouteForArbitrage quote s amountIn minThr [S, X, Y, S]).1 = some opp →
        opp.endAmount - opp.startAmount = amountIn * (r1 * r2 * r3) - amountIn) ∧
    ((checkRouteForArbitrage quote s amountIn minThr [S, X, Y, S]).1.isSome ↔
        minThr * amountIn ≤ (amountIn * (r1 * r2 * r3) - amountIn) - 0.00001 * 3) := by
  have hfl0 : ⌊amountIn * 10 ^ tS.decimals⌋ = a0 := by
    rw [hd, h0]; exact Int.floor_intCast a0
  have e1 : runHops quote s (amountIn * 10 ^ tS.decimals) S [X, Y, S]
      = runHops quote (markVerified (markVerified s S) X) (r1 * (a0 : ℚ)) X [Y, S] :=
    runHops_cons_step _ hX hfl0 h0p hq1
  have hY1 : ((lookupTok (markVerified (markVerified s S) X).tokenMap Y).map
      (fun t => t.decimals)) = some tY.decimals := by
    rw [markVerified_decimals, markVerified_decimals, hY]; rfl
  obtain ⟨tY1, hYl⟩ : ∃ t, lookupTok (markVerified (markVerified s S) X).tokenMap Y = some t := by
    cases hcase : lookupTok (markVerified (markVerified s S) X).tokenMap Y with
    | none => rw [hcase] at hY1; exact absurd hY1 (by simp)
    | some t => exact ⟨t, rfl⟩
  have hfl1 : ⌊r1 * (a0 : ℚ)⌋ = a1 := by rw [h1]; exact Int.floor_intCast a1
  have e2 : runHops quote (markVerified (markVerified s S) X) (r1 * (a0 : ℚ)) X [Y, S]
      = runHops quote (markVerified (markVerified (markVerified (markVerified s S) X) X) Y)
          (r2 * (a1 : ℚ)) Y [S] :=
    runHops_cons_step _ hYl hfl1 h1p hq2
  have hS2 : ((lookupTok (markVerified (markVerified (markVerified (markVerified s S) X) X) Y).tokenMap S).map
      (fun t => t.decimals)) = some tS.decimals := by
    rw [markVerified_decimals, markVerified_decimals, markVerified_decimals,
      markVerified_decimals, hS]; rfl
  obtain ⟨tS2, hS2l⟩ : ∃ t, lookupTok
      (markVerified (markVerified (markVerified (markVerified s S) X) X) Y).tokenMap S = some t := by
    cases hcase : lookupTok
        (markVerified (markVerified (markVerified (markVerified s S) X) X) Y).tokenMap S with
    | none => rw [hcase] at hS2; exact absurd hS2 (by simp)
    | some t => exact ⟨t, rfl⟩
  have hfl2 : ⌊r2 * (a1 : ℚ)⌋ = a2 := by rw [h2]; exact Int.floor_intCast a2
  have e3 : runHops quote (markVerified (markVerified (markVerified (markVerified s S) X) X) Y)
        (r2 * (a1 : ℚ)) Y [S]
      = runHops quote (markVerified (markVerified
          (markVerified (markVerified (markVerified (markVerified s S) X) X) Y) Y) S)
          (r3 * (a2 : ℚ)) S [] :=
    runHops_cons_step _ hS2l hfl2 h2p hq3
  have etot : runHops quote s (amountIn * 10 ^ tS.decimals) S [X, Y, S]
      = (some (r3 * (a2 : ℚ)), markVerified (markVerified
          (markVerified (markVerified (markVerified (markVerified s S) X) X) Y) Y) S) := by
    rw [e1, e2, e3, runHops_nil]
  have hdec3 : ((lookupTok (markVerified (markVerified
      (markVerified (markVerified (markVerified (markVerified s S) X) X) Y) Y) S).tokenMap S).map
      (fun t => t.decimals)) = some tS.decimals := by
    rw [markVerified_decimals, markVerified_decimals, markVerified_decimals,
      markVerified_decimals, markVerified_decimals, markVerified_decimals, hS]; rfl
  obtain ⟨tS3, hS3l, hS3d⟩ : ∃ t, lookupTok (markVerified (markVerified
      (markVerified (markVerified (markVerified (markVerified s S) X) X) Y) Y) S).tokenMap S
        = some t ∧ t.decimals = tS.decimals := by
    cases hcase : lookupTok (markVerified (markVerified
        (markVerified (markVerified (markVerified (markVerified s S) X) X) Y) Y) S).tokenMap S with
    | none => rw [hcase] at hdec3; exact absurd hdec3 (by simp)
    | some t => rw [hcase] at hdec3; exact ⟨t, rfl, by simpa using hdec3⟩
  have h10 : (10 : ℚ) ^ d ≠ 0 := pow_ne_zero d (by norm_num)
  have hend : (r3 * (a2 : ℚ)) / 10 ^ d = amountIn * (r1 * r2 * r3) := by
    field_simp
    rw [← h2, ← h1, ← h0]
    ring
  unfold checkRouteForArbitrage
  simp only [hS]
  simp only [etot]
  simp only [hS3l]
  simp only [hS3d, hd, if_neg hd0, List.length_cons, List.length_nil]
  rw [hend]
  norm_num
  have hcond : (minThr ≤ (amountIn * (r1 * r2 * r3) - 3 / 100000) / amountIn - 1)
      ↔ minThr * amountIn ≤ amountIn * (r1 * r2 * r3) - amountIn - 3 / 100000 := by
    rw [le_sub_iff_add_le, le_div_iff₀ hpos]
    constructor <;> intro h <;> nlinarith
  constructor
  · intro opp hopp
    by_cases hc : minThr ≤ (amountIn * (r1 * r2 * r3) - 3 / 100000) / amountIn - 1
    · rw [if_pos hc] at hopp
      replace hopp : some _ = some opp := hopp
      injection hopp with h'
      rw [← h']
    · rw [if_neg hc] at hopp
      replace hopp : (none : Option OpportunityM) = some opp := hopp
      exact absurd hopp (by simp)
  · by_cases hc : minThr ≤ (amountIn * (r1 * r2 * r3) - 3 / 100000) / amountIn - 1
    · rw [if_pos hc]
      simpa using hcond.mp hc
    · rw [if_neg hc]
      simp only [Option.isSome_none, Bool.false_eq_true, false_iff]
      exact fun hcon => hc (hcond.mpr hcon)

theorem evaluator_three_hop_fixed_rates_witness :
    (∀ opp, (checkRouteForArbitrage c3QuoteW c3StateW 1 (1 / 2) ["S", "X", "Y", "S"]).1 = some opp →
        opp.endAmount - opp.startAmount = 1 * (2 * 1 * 1) - 1) ∧
    ((checkRouteForArbitrage c3QuoteW c3StateW 1 (1 / 2) ["S", "X", "Y", "S"]).1.isSome ↔
        (1 / 2) * 1 ≤ ((1 : ℚ) * (2 * 1 * 1) - 1) - 0.00001 * 3) :=
  evaluator_three_hop_fixed_rates c3QuoteW c3StateW "S" "X" "Y" c3TokS c3TokX c3TokY 1
    1 (1 / 2) 2 1 1 10 20 20
    (by decide) (by decide) (by decide) rfl (by decide) (by norm_num)
    (by norm_num) (by decide) (by norm_num [c3QuoteW]) (by norm_num) (by decide)
    (by norm_num [c3QuoteW]; decide) (by norm_num) (by decide)
    (by norm_num [c3QuoteW]; decide)

/-! ## C8 — verification side effect of a successful hop -/

theorem contains_append_singleton (l : List String) (m x : String) (h : x ≠ m) :
    (l ++ [m]).contains x = l.contains x := by
  by_cases hx : x ∈ l
  · have h1 : (l ++ [m]).contains x = true := List.elem_iff.mpr (List.mem_append_left _ hx)
    have h2 : l.contains x = true := List.elem_iff.mpr hx
    rw [h1, h2]
  · have h1 : (l ++ [m]).contains x = false := by
      rw [← Bool.not_eq_true]
      intro hc
      rcases List.mem_append.mp (List.elem_iff.mp hc) with hmem | hmem
      · exact hx hmem
      · exact h (List.mem_singleton.mp hmem)
    have h2 : l.contains x = false := by
      rw [← Bool.not_eq_true]
      exact fun hc => hx (List.elem_iff.mp hc)
    rw [h1, h2]

theorem markVerified_kg_contains_other (s : ScannerState) (m x : String) (h : x ≠ m) :
    (markVerified s m).knownGoodTokens.contains x = s.knownGoodTokens.contains x := by
  unfold markVerified
  split
  · rfl
  · split
    · exact contains_append_singleton _ _ _ h
    · exact contains_append_singleton _ _ _ h

/-- C8 (amended): when a hop's quote call succeeds, both the hop's input and
output assets end up in `knownGoodTokens` after the evaluation; the token-map
`verified` flag of an asset is additionally set when that asset was not
already in `knownGoodTokens` (an asset already in the known-good set is left
untouched, so a stale unset flag is not updated). -/
theorem hop_success_marks_verified (quote : String → String → ℤ → Option ℚ)
    (s : ScannerState) (amt : ℚ) (cur out : String) (rest : List String) (t : TokenData)
    (hl : lookupTok s.tokenMap out = some t) (a : ℤ) (hfl : ⌊amt⌋ = a) (hap : 0 < a)
    (o : ℚ) (hq : quote cur out a = some o) :
    cur ∈ ((runHops quote s amt cur (out :: rest)).2).knownGoodTokens ∧
    out ∈ ((runHops quote s amt cur (out :: rest)).2).knownGoodTokens ∧
    (∀ tc, s.knownGoodTokens.contains cur = false →
      lookupTok s.tokenMap cur = some tc →
      verifiedFlag ((runHops quote s amt cur (out :: rest)).2) cur = true) ∧
    (s.knownGoodTokens.contains out = false → cur ≠ out →
      verifiedFlag ((runHops quote s amt cur (out :: rest)).2) out = true) := by
  rw [runHops_cons_step rest hl hfl hap hq]
  refine ⟨?_, ?_, ?_, ?_⟩
  · exact runHops_kg_mono quote cur rest _ o out
      (markVerified_kg_mono _ out cur (markVerified_kg_mem_self s cur))
  · exact runHops_kg_mono quote out rest _ o out
      (markVerified_kg_mem_self (markVerified s cur) out)
  · intro tc hkgc hlc
    exact runHops_flag_mono quote cur rest _ o out
      (markVerified_flag_of_true _ out cur (markVerified_sets_flag s cur tc hkgc hlc))
  · intro hkgo hne
    have hkgo' : (markVerified s cur).knownGoodTokens.contains out = false := by
      rw [markVerified_kg_contains_other s cur out (fun hc => hne hc.symm)]
      exact hkgo
    have hdec : ((lookupTok (markVerified s cur).tokenMap out).map (fun t => t.decimals))
        = some t.decimals := by
      rw [markVerified_decimals, hl]; rfl
    obtain ⟨t1, hl1⟩ : ∃ t1, lookupTok (markVerified s cur).tokenMap out = some t1 := by
      cases hcase : lookupTok (markVerified s cur).tokenMap out with
      | none => rw [hcase] at hdec; exact absurd hdec (by simp)
      | some t1 => exact ⟨t1, rfl⟩
    exact runHops_flag_mono quote out rest _ o out
      (markVerified_sets_flag (markVerified s cur) out t1 hkgo' hl1)

theorem hop_success_marks_verified_witness :
    "A" ∈ ((runHops c8QuoteW c8StateW2 5 "A" ["B"]).2).knownGoodTokens ∧
    "B" ∈ ((runHops c8QuoteW c8StateW2 5 "A" ["B"]).2).knownGoodTokens ∧
    (∀ tc, c8StateW2.knownGoodTokens.contains "A" = false →
      lookupTok c8StateW2.tokenMap "A" = some tc →
      verifiedFlag ((runHops c8QuoteW c8StateW2 5 "A" ["B"]).2) "A" = true) ∧
    (c8StateW2.knownGoodTokens.contains "B" = false → "A" ≠ "B" →
      verifiedFlag ((runHops c8QuoteW c8StateW2 5 "A" ["B"]).2) "B" = true) :=
  hop_success_marks_verified c8QuoteW c8StateW2 5 "A" "B" [] c8TokB
    (by decide) 5 (by decide) (by decide) ((5 : ℤ) : ℚ) rfl

/-- C8 (counterexample): with "A" already in the known-good set but carrying a
stale `verified = false` flag in the token map, the hop "A" → "B" succeeds
(the whole one-hop evaluation returns an amount) yet "A"'s token-map flag is
still false afterwards — the claim that every successful hop flags both assets
verified in the token map fails. -/
theorem hop_success_stale_flag_cex :
    (runHops c8QuoteW c8StateW 5 "A" ["B"]).1 = some ((5 : ℤ) : ℚ) ∧
    "A" ∈ ((runHops c8QuoteW c8StateW 5 "A" ["B"]).2).knownGoodTokens ∧
    verifiedFlag ((runHops c8QuoteW c8StateW 5 "A" ["B"]).2) "A" = false := by
  decide

/-! ## C4 — blacklisted assets and the route queue -/

/-- C4 (amended): after a regeneration, no route in the queue contains a
blacklisted token other than (possibly) the source mint — route generation
checks every candidate intermediate token against the blacklist but never
checks the source mint itself; and a popped route that now contains any
blacklisted token (the source included) is never re-enqueued. -/
theorem queue_no_blacklisted_nonsource (s : ScannerState) (solMint : String)
    (item : RouteQueueItem) (m : String) :
    (item ∈ generateAllRoutes s solMint → m ∈ item.route → m ≠ solMint →
      isBlacklistedTok s m = false) ∧
    (containsBlacklisted s item.route = true → reenqueueRoute s item = s.routeQueue) := by
  constructor
  · intro hitem hm hne
    unfold generateAllRoutes sortRouteQueue at hitem
    rw [List.mem_insertionSort] at hitem
    obtain ⟨r, hr, heq⟩ := List.mem_map.mp hitem
    obtain ⟨mint, hmint, hfm⟩ := List.mem_filterMap.mp hr
    have hroute : item.route = r := by rw [← heq]
    rw [hroute] at hm
    cases hlk : lookupTok s.tokenMap mint with
    | none => rw [hlk] at hfm; exact absurd hfm (by simp)
    | some token =>
      simp only [hlk] at hfm
      split_ifs at hfm with h1 h2 h3
      simp at hfm
      rw [← hfm] at hm
      have hmmint : m = mint := by
        rcases List.mem_cons.mp hm with rfl | hm2
        · exact absurd rfl hne
        · rcases List.mem_cons.mp hm2 with rfl | hm3
          · rfl
          · rcases List.mem_cons.mp hm3 with rfl | hm4
            · exact absurd rfl hne
            · exact absurd hm4 (List.not_mem_nil m)
      subst hmmint
      unfold isBlacklistedTok
      rw [hlk]
      rw [Bool.not_eq_true, Bool.or_eq_false_iff] at h2
      rw [h2.1]
      simp [h2.2]
  · intro hcb
    unfold reenqueueRoute
    rw [if_pos hcb]

theorem queue_no_blacklisted_nonsource_witness :
    isBlacklistedTok c4StateW "X" = false ∧
    reenqueueRoute c4StateW ⟨["SOL", "X", "SOL"], "triangular", 1, 0⟩ = c4StateW.routeQueue :=
  ⟨(queue_no_blacklisted_nonsource c4StateW "SOL"
      ⟨["SOL", "X", "SOL"], "triangular", 1, 0⟩ "X").1
        (by unfold generateAllRoutes sortRouteQueue
            rw [List.mem_insertionSort]
            decide)
        (by decide) (by decide),
   (queue_no_blacklisted_nonsource c4StateW "SOL"
      ⟨["SOL", "X", "SOL"], "triangular", 1, 0⟩ "X").2 (by decide)⟩

/-- C4 (counterexample): with the source mint itself blacklisted, route
generation still emits the route [SOL, X, SOL], which contains the
blacklisted token "SOL" — so a cycle containing a blacklisted asset can be
present in the queue right after regeneration. -/
theorem route_generation_blacklisted_source_cex :
    isBlacklistedTok c4StateW "SOL" = true ∧
    generateTriangularRoutes c4StateW "SOL" = [["SOL", "X", "SOL"]] ∧
    (⟨["SOL", "X", "SOL"], "triangular", 1, 0⟩ : RouteQueueItem)
      ∈ generateAllRoutes c4StateW "SOL" := by
  refine ⟨by decide, by decide, ?_⟩
  unfold generateAllRoutes sortRouteQueue
  rw [List.mem_insertionSort]
  decide

/-! ## C5 — conservative blacklist fallback -/

theorem addSet_contains_self (l : List String) (m : String) :
    (addSet l m).contains m = true := by
  unfold addSet
  split
  · next h => exact h
  · exact List.elem_iff.mpr (List.mem_append_right _ (List.mem_singleton.mpr rfl))

theorem addSet_contains_mono (l : List String) (m x : String) (h : l.contains x = true) :
    (addSet l m).contains x = true := by
  unfold addSet
  split
  · exact h
  · exact List.elem_iff.mpr (List.mem_append_left _ (List.elem_iff.mp h))

theorem addSet_contains_other (l : List String) (m x : String) (h : x ≠ m) :
    (addSet l m).contains x = l.contains x := by
  unfold addSet
  split
  · rfl
  · exact contains_append_singleton l m x h

theorem addSet_mem_self (l : List String) (m : String) : m ∈ addSet l m := by
  unfold addSet
  split
  · next h => exact List.elem_iff.mp h
  · exact List.mem_append_right _ (List.mem_singleton.mpr rfl)

theorem addSet_mem_mono (l : List String) (m x : String) (h : x ∈ l) : x ∈ addSet l m := by
  unfold addSet
  split
  · exact h
  · exact List.mem_append_left _ h

theorem blacklistToken_kg (s : ScannerState) (m : String) :
    (blacklistToken s m).knownGoodTokens = s.knownGoodTokens := by
  unfold blacklistToken
  split <;> rfl

theorem blacklistToken_blk_self (s : ScannerState) (m : String) :
    (blacklistToken s m).blacklistedTokens.contains m = true := by
  unfold blacklistToken
  split <;> exact addSet_contains_self _ _

theorem isBlacklistedTok_of_contains (s : ScannerState) (m : String)
    (h : s.blacklistedTokens.contains m = true) : isBlacklistedTok s m = true := by
  unfold isBlacklistedTok
  rw [h, Bool.true_or]

theorem blacklistToken_isBlk_self (s : ScannerState) (m : String) :
    isBlacklistedTok (blacklistToken s m) m = true :=
  isBlacklistedTok_of_contains _ _ (blacklistToken_blk_self s m)

theorem blacklistToken_isBlk_mono (s : ScannerState) (m x : String)
    (h : isBlacklistedTok s x = true) : isBlacklistedTok (blacklistToken s m) x = true := by
  unfold isBlacklistedTok at h
  rw [Bool.or_eq_true] at h
  rcases h with hc | hf
  · refine isBlacklistedTok_of_contains _ _ ?_
    unfold blacklistToken
    split <;> exact addSet_contains_mono _ _ _ hc
  · unfold isBlacklistedTok
    rw [Bool.or_eq_true]
    right
    unfold blacklistToken
    split
    · next t hteq =>
      show (((lookupTok (setTok s.tokenMap m { t with blacklisted := true }) x).map
        (fun t => t.blacklisted)).getD false) = true
      rw [lookupTok_setTok]
      by_cases hxm : x = m
      · subst hxm; rw [if_pos rfl, hteq]; rfl
      · rw [if_neg hxm]; exact hf
    · exact hf

theorem blacklistFallback_cons (s : ScannerState) (solMint mint : String)
    (rest : List String) :
    blacklistFallback s solMint (mint :: rest)
      = blacklistFallback
          (if (mint != solMint && !s.knownGoodTokens.contains mint) = true
           then blacklistToken s mint else s) solMint rest := rfl

theorem blacklistFallback_kg (solMint : String) :
    ∀ (route : List String) (s : ScannerState),
      (blacklistFallback s solMint route).knownGoodTokens = s.knownGoodTokens
  | [], _ => rfl
  | mint :: rest, s => by
    rw [blacklistFallback_cons]
    split
    · rw [blacklistFallback_kg solMint rest _, blacklistToken_kg]
    · rw [blacklistFallback_kg solMint rest _]

theorem blacklistFallback_isBlk_mono (solMint x : String) :
    ∀ (route : List String) (s : ScannerState),
      isBlacklistedTok s x = true →
      isBlacklistedTok (blacklistFallback s solMint route) x = true
  | [], _, h => h
  | mint :: rest, s, h => by
    rw [blacklistFallback_cons]
    split
    · exact blacklistFallback_isBlk_mono solMint x rest _ (blacklistToken_isBlk_mono s mint x h)
    · exact blacklistFallback_isBlk_mono solMint x rest _ h

theorem blacklistFallback_blk (solMint x : String) :
    ∀ (route : List String) (s : ScannerState),
      x ∈ route → x ≠ solMint → s.knownGoodTokens.contains x = false →
      isBlacklistedTok (blacklistFallback s solMint route) x = true
  | [], _, hx, _, _ => absurd hx (List.not_mem_nil x)
  | mint :: rest, s, hx, hne, hkg => by
    rw [blacklistFallback_cons]
    by_cases hxm : x = mint
    · subst hxm
      rw [if_pos (by
        rw [Bool.and_eq_true]
        refine ⟨bne_iff_ne.mpr hne, ?_⟩
        rw [hkg]
        rfl)]
      exact blacklistFallback_isBlk_mono solMint x rest _ (blacklistToken_isBlk_self s x)
    · have hx2 : x ∈ rest := by
        rcases List.mem_cons.mp hx with rfl | hx2
        · exact absurd rfl hxm
        · exact hx2
      split
      · exact blacklistFallback_blk solMint x rest _ hx2 hne
          (by rw [blacklistToken_kg]; exact hkg)
      · exact blacklistFallback_blk solMint x rest _ hx2 hne hkg

/-- C5 (amended): when the offending asset cannot be parsed, the fallback
blacklists every asset of the cycle that is neither the source mint nor in
the known-good set (assets in `knownGoodTokens` are exempted); the entry is
then dropped rather than re-enqueued whenever some asset of the route was so
blacklisted.  A route whose non-source assets are all known-good is left
un-blacklisted and is re-enqueued. -/
theorem fallback_blacklists_non_knownGood (s : ScannerState) (solMint : String)
    (route : List String) (item : RouteQueueItem) (x : String)
    (hroute : item.route = route) :
    (x ∈ route → x ≠ solMint → s.knownGoodTokens.contains x = false →
      isBlacklistedTok (blacklistFallback s solMint route) x = true) ∧
    ((∃ y, y ∈ route ∧ y ≠ solMint ∧ s.knownGoodTokens.contains y = false) →
      reenqueueRoute (blacklistFallback s solMint route) item
        = (blacklistFallback s solMint route).routeQueue) := by
  constructor
  · exact fun hx hne hkg => blacklistFallback_blk solMint x route s hx hne hkg
  · rintro ⟨y, hy, hyne, hykg⟩
    have hblk := blacklistFallback_blk solMint y route s hy hyne hykg
    have hcb : containsBlacklisted (blacklistFallback s solMint route) item.route = true := by
      rw [hroute]
      unfold containsBlacklisted
      rw [List.any_eq_true]
      exact ⟨y, hy, hblk⟩
    unfold reenqueueRoute
    rw [if_pos hcb]

theorem fallback_blacklists_non_knownGood_witness :
    isBlacklistedTok (blacklistFallback c5StateW2 "SOL" ["SOL", "X", "SOL"]) "X" = true ∧
    reenqueueRoute (blacklistFallback c5StateW2 "SOL" ["SOL", "X", "SOL"])
        ⟨["SOL", "X", "SOL"], "triangular", 1, 0⟩
      = (blacklistFallback c5StateW2 "SOL" ["SOL", "X", "SOL"]).routeQueue :=
  ⟨(fallback_blacklists_non_knownGood c5StateW2 "SOL" ["SOL", "X", "SOL"]
      ⟨["SOL", "X", "SOL"], "triangular", 1, 0⟩ "X" rfl).1
        (by decide) (by decide) (by decide),
   (fallback_blacklists_non_knownGood c5StateW2 "SOL" ["SOL", "X", "SOL"]
      ⟨["SOL", "X", "SOL"], "triangular", 1, 0⟩ "X" rfl).2
        ⟨"X", by decide, by decide, by decide⟩⟩

/-- C5 (counterexample): with every non-source asset of the route in the
known-good set, the unparseable-token fallback blacklists nothing at all and
the entry is re-enqueued — the claim that every non-source asset is
blacklisted and the entry dropped fails. -/
theorem fallback_knownGood_exempt_cex :
    (blacklistFallback c5StateW "SOL" ["SOL", "X", "SOL"]).blacklistedTokens = [] ∧
    isBlacklistedTok (blacklistFallback c5StateW "SOL" ["SOL", "X", "SOL"]) "X" = false ∧
    reenqueueRoute (blacklistFallback c5StateW "SOL" ["SOL", "X", "SOL"])
        ⟨["SOL", "X", "SOL"], "triangular", 1, 0⟩
      = (blacklistFallback c5StateW "SOL" ["SOL", "X", "SOL"]).routeQueue ++
        [⟨["SOL", "X", "SOL"], "triangular", 1, 0⟩] := by
  decide

/-! ## C6 — registry refresh against the canonical token set -/

theorem lookupTok_append_of_none {tm : TokenMap} {x : String}
    (h : lookupTok tm x = none) (l : TokenMap) : lookupTok (tm ++ l) x = lookupTok l x := by
  induction tm with
  | nil => rfl
  | cons p rest ih =>
    rw [lookupTok_cons] at h
    rw [List.cons_append, lookupTok_cons]
    by_cases hpx : p.1 = x
    · rw [if_pos hpx] at h; exact absurd h (by simp)
    · rw [if_neg hpx] at h
      rw [if_neg hpx]
      exact ih h

theorem lookup_isSome_mem_keys {x : String} :
    ∀ {tm : TokenMap}, (lookupTok tm x).isSome = true → x ∈ tm.map Prod.fst
  | [], h => by simp [lookupTok] at h
  | p :: rest, h => by
    rw [lookupTok_cons] at h
    by_cases hpx : p.1 = x
    · rw [List.map_cons, hpx]
      exact List.mem_cons_self _ _
    · rw [if_neg hpx] at h
      exact List.mem_cons_of_mem _ (lookup_isSome_mem_keys h)

theorem refreshStep1_kg_self (s : ScannerState) (tok : JupToken) :
    tok.address ∈ (refreshStep1 s tok).knownGoodTokens := by
  unfold refreshStep1
  split <;> exact addSet_mem_self _ _

theorem refreshStep1_kg_mono (s : ScannerState) (tok : JupToken) (x : String)
    (h : x ∈ s.knownGoodTokens) : x ∈ (refreshStep1 s tok).knownGoodTokens := by
  unfold refreshStep1
  split <;> exact addSet_mem_mono _ _ _ h

theorem refreshStep1_kg_contains_other (s : ScannerState) (tok : JupToken) (x : String)
    (h : x ≠ tok.address) :
    (refreshStep1 s tok).knownGoodTokens.contains x = s.knownGoodTokens.contains x := by
  unfold refreshStep1
  split <;> exact addSet_contains_other _ _ _ h

theorem refreshStep1_entry_mono (s : ScannerState) (tok : JupToken) (x : String)
    (h : (lookupTok s.tokenMap x).isSome = true) :
    (lookupTok (refreshStep1 s tok).tokenMap x).isSome = true := by
  unfold refreshStep1
  split
  · next t hteq =>
    show (lookupTok (setTok s.tokenMap tok.address { t with verified := true }) x).isSome = true
    rw [lookupTok_setTok]
    by_cases hxa : x = tok.address
    · subst hxa; rw [if_pos rfl, hteq]; rfl
    · rw [if_neg hxa]; exact h
  · next hteq =>
    obtain ⟨tx, htx⟩ := Option.isSome_iff_exists.mp h
    show (lookupTok (s.tokenMap ++ _) x).isSome = true
    rw [lookupTok_append_of_some htx]
    rfl

theorem refreshStep1_flag_self (s : ScannerState) (tok : JupToken) :
    verifiedFlag (refreshStep1 s tok) tok.address = true := by
  unfold refreshStep1
  split
  · next t hteq =>
    unfold verifiedFlag
    show ((lookupTok (setTok s.tokenMap tok.address { t with verified := true })
      tok.address).map (fun t => t.verified)).getD false = true
    rw [lookupTok_setTok, if_pos rfl, hteq]
    rfl
  · next hteq =>
    unfold verifiedFlag
    show ((lookupTok (s.tokenMap ++ [(tok.address, _)]) tok.address).map
      (fun t => t.verified)).getD false = true
    rw [lookupTok_append_of_none hteq, lookupTok_cons, if_pos rfl]
    rfl

theorem refreshStep1_flag_mono (s : ScannerState) (tok : JupToken) (x : String)
    (h : verifiedFlag s x = true) : verifiedFlag (refreshStep1 s tok) x = true := by
  unfold verifiedFlag at h
  cases hlx : lookupTok s.tokenMap x with
  | none => rw [hlx] at h; simp at h
  | some tx =>
    rw [hlx] at h
    unfold refreshStep1
    split
    · next t hteq =>
      unfold verifiedFlag
      show ((lookupTok (setTok s.tokenMap tok.address { t with verified := true }) x).map
        (fun t => t.verified)).getD false = true
      rw [lookupTok_setTok]
      by_cases hxa : x = tok.address
      · subst hxa; rw [if_pos rfl, hteq]; rfl
      · rw [if_neg hxa, hlx]; exact h
    · next hteq =>
      unfold verifiedFlag
      show ((lookupTok (s.tokenMap ++ [(tok.address, _)]) x).map
        (fun t => t.verified)).getD false = true
      rw [lookupTok_append_of_some hlx]
      exact h

theorem refreshStep1_isBlk_mono (s : ScannerState) (tok : JupToken) (x : String)
    (h : isBlacklistedTok s x = true) : isBlacklistedTok (refreshStep1 s tok) x = true := by
  unfold isBlacklistedTok at h
  rw [Bool.or_eq_true] at h
  have hblkset : (refreshStep1 s tok).blacklistedTokens = s.blacklistedTokens := by
    unfold refreshStep1
    split <;> rfl
  rcases h with hc | hf
  · exact isBlacklistedTok_of_contains _ _ (by rw [hblkset]; exact hc)
  · unfold isBlacklistedTok
    rw [Bool.or_eq_true]
    right
    cases hlx : lookupTok s.tokenMap x with
    | none => rw [hlx] at hf; simp at hf
    | some tx =>
      rw [hlx] at hf
      unfold refreshStep1
      split
      · next t hteq =>
        show ((lookupTok (setTok s.tokenMap tok.address { t with verified := true }) x).map
          (fun t => t.blacklisted)).getD false = true
        rw [lookupTok_setTok]
        by_cases hxa : x = tok.address
        · subst hxa
          rw [if_pos rfl, hteq]
          rw [hteq] at hlx
          injection hlx with hlx2
          rw [← hlx2] at hf
          exact hf
        · rw [if_neg hxa, hlx]; exact hf
      · next hteq =>
        show ((lookupTok (s.tokenMap ++ [(tok.address, _)]) x).map
          (fun t => t.blacklisted)).getD false = true
        rw [lookupTok_append_of_some hlx]
        exact hf

theorem fold1_kg_contains_other :
    ∀ (toks : List JupToken) (s : ScannerState) (x : String),
      (toks.map (fun t => t.address)).contains x = false →
      (toks.foldl refreshStep1 s).knownGoodTokens.contains x
        = s.knownGoodTokens.contains x
  | [], _, _, _ => rfl
  | tok :: rest, s, x, h => by
    rw [List.map_cons, List.contains_cons, Bool.or_eq_false_iff] at h
    rw [List.foldl_cons, fold1_kg_contains_other rest _ x h.2,
      refreshStep1_kg_contains_other s tok x (by
        intro hc
        rw [hc] at h
        simp at h)]

theorem fold1_entry_mono :
    ∀ (toks : List JupToken) (s : ScannerState) (x : String),
      (lookupTok s.tokenMap x).isSome = true →
      (lookupTok (toks.foldl refreshStep1 s).tokenMap x).isSome = true
  | [], _, _, h => h
  | tok :: rest, s, x, h => by
    rw [List.foldl_cons]
    exact fold1_entry_mono rest _ x (refreshStep1_entry_mono s tok x h)

theorem fold1_kg_mono :
    ∀ (toks : List JupToken) (s : ScannerState) (x : String),
      x ∈ s.knownGoodTokens → x ∈ (toks.foldl refreshStep1 s).knownGoodTokens
  | [], _, _, h => h
  | tok :: rest, s, x, h => by
    rw [List.foldl_cons]
    exact fold1_kg_mono rest _ x (refreshStep1_kg_mono s tok x h)

theorem fold1_flag_mono :
    ∀ (toks : List JupToken) (s : ScannerState) (x : String),
      verifiedFlag s x = true → verifiedFlag (toks.foldl refreshStep1 s) x = true
  | [], _, _, h => h
  | tok :: rest, s, x, h => by
    rw [List.foldl_cons]
    exact fold1_flag_mono rest _ x (refreshStep1_flag_mono s tok x h)

theorem fold1_isBlk_mono :
    ∀ (toks : List JupToken) (s : ScannerState) (x : String),
      isBlacklistedTok s x = true → isBlacklistedTok (toks.foldl refreshStep1 s) x = true
  | [], _, _, h => h
  | tok :: rest, s, x, h => by
    rw [List.foldl_cons]
    exact fold1_isBlk_mono rest _ x (refreshStep1_isBlk_mono s tok x h)

theorem fold1_processed :
    ∀ (toks : List JupToken) (s : ScannerState) (tok : JupToken), tok ∈ toks →
      tok.address ∈ (toks.foldl refreshStep1 s).knownGoodTokens ∧
      verifiedFlag (toks.foldl refreshStep1 s) tok.address = true
  | [], _, _, h => absurd h (List.not_mem_nil _)
  | tok1 :: rest, s, tok, h => by
    rw [List.foldl_cons]
    rcases List.mem_cons.mp h with rfl | h2
    · exact ⟨fold1_kg_mono rest _ _ (refreshStep1_kg_self s tok),
        fold1_flag_mono rest _ _ (refreshStep1_flag_self s tok)⟩
    · exact fold1_processed rest _ tok h2

theorem refreshStep2_kg (jup : List String) (s : ScannerState) (addr : String) :
    (refreshStep2 jup s addr).knownGoodTokens = s.knownGoodTokens := by
  unfold refreshStep2
  split
  · rw [blacklistToken_kg]
  · rfl

theorem blacklistToken_flag_mono (s : ScannerState) (m x : String)
    (h : verifiedFlag s x = true) : verifiedFlag (blacklistToken s m) x = true := by
  unfold verifiedFlag at h
  cases hlx : lookupTok s.tokenMap x with
  | none => rw [hlx] at h; simp at h
  | some tx =>
    rw [hlx] at h
    unfold blacklistToken
    split
    · next t hteq =>
      unfold verifiedFlag
      show ((lookupTok (setTok s.tokenMap m { t with blacklisted := true }) x).map
        (fun t => t.verified)).getD false = true
      rw [lookupTok_setTok]
      by_cases hxm : x = m
      · subst hxm
        rw [if_pos rfl, hteq]
        rw [hteq] at hlx
        injection hlx with hlx2
        rw [← hlx2] at h
        exact h
      · rw [if_neg hxm, hlx]; exact h
    · unfold verifiedFlag
      rw [hlx]
      exact h

theorem refreshStep2_flag_mono (jup : List String) (s : ScannerState) (addr x : String)
    (h : verifiedFlag s x = true) : verifiedFlag (refreshStep2 jup s addr) x = true := by
  unfold refreshStep2
  split
  · exact blacklistToken_flag_mono s addr x h
  · exact h

theorem refreshStep2_isBlk_mono (jup : List String) (s : ScannerState) (addr x : String)
    (h : isBlacklistedTok s x = true) : isBlacklistedTok (refreshStep2 jup s addr) x = true := by
  unfold refreshStep2
  split
  · exact blacklistToken_isBlk_mono s addr x h
  · exact h

theorem fold2_kg (jup : List String) :
    ∀ (keys : List String) (s : ScannerState),
      (keys.foldl (refreshStep2 jup) s).knownGoodTokens = s.knownGoodTokens
  | [], _ => rfl
  | k :: rest, s => by
    rw [List.foldl_cons, fold2_kg jup rest _, refreshStep2_kg]

theorem fold2_flag_mono (jup : List String) :
    ∀ (keys : List String) (s : ScannerState) (x : String),
      verifiedFlag s x = true → verifiedFlag (keys.foldl (refreshStep2 jup) s) x = true
  | [], _, _, h => h
  | k :: rest, s, x, h => by
    rw [List.foldl_cons]
    exact fold2_flag_mono jup rest _ x (refreshStep2_flag_mono jup s k x h)

theorem fold2_isBlk_mono (jup : List String) :
    ∀ (keys : List String) (s : ScannerState) (x : String),
      isBlacklistedTok s x = true →
      isBlacklistedTok (keys.foldl (refreshStep2 jup) s) x = true
  | [], _, _, h => h
  | k :: rest, s, x, h => by
    rw [List.foldl_cons]
    exact fold2_isBlk_mono jup rest _ x (refreshStep2_isBlk_mono jup s k x h)

theorem fold2_blacklists (jup : List String) (addr : String) :
    ∀ (keys : List String) (s : ScannerState),
      addr ∈ keys → jup.contains addr = false →
      s.knownGoodTokens.contains addr = false →
      isBlacklistedTok (keys.foldl (refreshStep2 jup) s) addr = true
  | [], _, hmem, _, _ => absurd hmem (List.not_mem_nil _)
  | k :: rest, s, hmem, hjup, hkg => by
    rw [List.foldl_cons]
    by_cases hak : addr = k
    · subst hak
      have hstep : refreshStep2 jup s addr = blacklistToken s addr := by
        unfold refreshStep2
        rw [if_pos (by rw [Bool.and_eq_true, hjup, hkg]; exact ⟨rfl, rfl⟩)]
      rw [hstep]
      exact fold2_isBlk_mono jup rest _ addr (blacklistToken_isBlk_self s addr)
    · have hmem2 : addr ∈ rest := by
        rcases List.mem_cons.mp hmem with rfl | h2
        · exact absurd rfl hak
        · exact h2
      exact fold2_blacklists jup addr rest _ hmem2 hjup
        (by rw [refreshStep2_kg]; exact hkg)

/-- C6 (amended): after a refresh against the canonical token list, (i) every
asset with a token-map entry that is absent from the canonical set and not
already in the known-good set is demoted to Blacklisted; (ii) every asset
present in the canonical set is added to the known-good set and its token-map
`verified` flag is set; but (iii) a previously Blacklisted asset is never
un-blacklisted — even when present in the canonical set it stays classified
`Blacklisted`, since the blacklist takes precedence over the verified flag. -/
theorem refresh_reconciliation (s : ScannerState) (toks : List JupToken) (addr : String) :
    ((lookupTok s.tokenMap addr).isSome = true →
      (toks.map (fun t => t.address)).contains addr = false →
      s.knownGoodTokens.contains addr = false →
      isBlacklistedTok (refreshTokens s toks) addr = true) ∧
    ((∃ tok, tok ∈ toks ∧ tok.address = addr) →
      addr ∈ (refreshTokens s toks).knownGoodTokens ∧
      verifiedFlag (refreshTokens s toks) addr = true) ∧
    (isBlacklistedTok s addr = true →
      classify (refreshTokens s toks) addr = Classification.Blacklisted) := by
  refine ⟨?_, ?_, ?_⟩
  · intro hentry hjup hkg
    unfold refreshTokens
    have hentry1 := fold1_entry_mono toks s addr hentry
    have hkeys := lookup_isSome_mem_keys hentry1
    exact fold2_blacklists _ addr _ _ hkeys hjup
      (by rw [fold1_kg_contains_other toks s addr hjup]; exact hkg)
  · rintro ⟨tok, htok, rfl⟩
    unfold refreshTokens
    obtain ⟨hkg1, hflag1⟩ := fold1_processed toks s tok htok
    constructor
    · rw [← List.elem_iff] at hkg1 ⊢
      rw [fold2_kg]
      exact hkg1
    · exact fold2_flag_mono _ _ _ _ hflag1
  · intro hblk
    have hfinal : isBlacklistedTok (refreshTokens s toks) addr = true := by
      unfold refreshTokens
      exact fold2_isBlk_mono _ _ _ addr (fold1_isBlk_mono toks s addr hblk)
    unfold classify
    rw [hfinal]
    rfl

theorem refresh_reconciliation_witness :
    isBlacklistedTok (refreshTokens c6StateW2 [c6TokW]) "Y" = true ∧
    ("X" ∈ (refreshTokens c6StateW2 [c6TokW]).knownGoodTokens ∧
     verifiedFlag (refreshTokens c6StateW2 [c6TokW]) "X" = true) ∧
    classify (refreshTokens c6StateW [c6TokW]) "X" = Classification.Blacklisted :=
  ⟨(refresh_reconciliation c6StateW2 [c6TokW] "Y").1 (by decide) (by decide) (by decide),
   (refresh_reconciliation c6StateW2 [c6TokW] "X").2.1
     ⟨c6TokW, List.mem_singleton.mpr rfl, rfl⟩,
   (refresh_reconciliation c6StateW [c6TokW] "X").2.2 (by decide)⟩

/-- C6 (counterexample): a previously Blacklisted asset that is present in the
canonical token set gets its `verified` flag set by the refresh, but it is not
removed from the blacklist, so it is still classified `Blacklisted` (not
`Verified`) afterwards — the claim's "promoted to Verified regardless of prior
state, including a previously Blacklisted asset" fails. -/
theorem refresh_blacklisted_canonical_cex :
    isBlacklistedTok c6StateW "X" = true ∧
    c6TokW.address = "X" ∧
    verifiedFlag (refreshTokens c6StateW [c6TokW]) "X" = true ∧
    classify (refreshTokens c6StateW [c6TokW]) "X" = Classification.Blacklisted ∧
    classify (refreshTokens c6StateW [c6TokW]) "X" ≠ Classification.Verified := by
  decide

end Arb
